import Mathlib

/-
Verification of the preview-proxy certificate authority module
(src/apps/client/electron/main/preview-proxy-ca.ts).

The module is embedded shallowly:
  * the JavaScript `Date` values manipulated through `setDate` / `setFullYear`
    are modelled at day granularity by `JSDate` (calendar year/month/day);
  * the external cryptographic primitives from node-forge and node:crypto
    (RSA key generation, `randomBytes`, SHA-256, PEM/DER encoders) are
    parameters gathered in `CryptoEnv`; successive nondeterministic draws are
    indexed by counters carried in the state;
  * the module-level mutable variables (`caKeyPair`, `caCertificate`,
    `caCertificatePem`, `caFingerprint256`, `secureContextCache`) become the
    explicit state `CAState`, threaded through every operation; a JavaScript
    `throw` is an `Except.error` result paired with the state at the throw;
  * `CAState` additionally carries specification-only history: counters of
    key generations, random draws and signatures performed, and the list of
    leaf certificates issued.  These record which external calls happened and
    never influence control flow (the counters also index the entropy
    streams, mirroring that every draw is fresh).
-/

namespace PreviewProxyCA

/-! ### Calendar dates, as JavaScript `Date` uses them -/

/-- Gregorian leap-year test, as used by JavaScript `Date` arithmetic. -/
def isLeapYear (y : Nat) : Bool :=
  y % 4 == 0 && (y % 100 != 0 || y % 400 == 0)

/-- Number of days of month `m` (1–12) in year `y`. -/
def daysInMonth (y m : Nat) : Nat :=
  if m == 2 then (if isLeapYear y then 29 else 28)
  else if m == 4 || m == 6 || m == 9 || m == 11 then 30
  else 31

/-- A JavaScript `Date`, at day granularity (month is 1-based). -/
structure JSDate where
  year : Nat
  month : Nat
  day : Nat
deriving DecidableEq

/-- Effect of `d.setDate(d.getDate() - 1)`: one day earlier, with JavaScript's
month/year rollover (day 1 of a month becomes the last day of the previous
month; Jan 1 becomes Dec 31 of the previous year). -/
def subOneDay (d : JSDate) : JSDate :=
  if 1 < d.day then ⟨d.year, d.month, d.day - 1⟩
  else if 1 < d.month then ⟨d.year, d.month - 1, daysInMonth d.year (d.month - 1)⟩
  else ⟨d.year - 1, 12, 31⟩

/-- Effect of `d.setFullYear(y)`: replace the year, keeping month and day;
JavaScript overflows an invalid day into the next month (Feb 29 of a leap
year becomes Mar 1 when moved to a non-leap year). -/
def setFullYear (d : JSDate) (y : Nat) : JSDate :=
  if d.day ≤ daysInMonth y d.month then ⟨y, d.month, d.day⟩
  else ⟨y, d.month + 1, d.day - daysInMonth y d.month⟩

/-- Modelled from the spec: "now plus `k` years" — the same calendar date `k`
years later (used to state the validity-window claims). -/
def addYears (d : JSDate) (k : Nat) : JSDate :=
  setFullYear d (d.year + k)

/-! ### X.509 data, as node-forge represents the fields this module sets -/

/-- One subject/issuer attribute, `{ name, value }`. -/
structure Attr where
  name : String
  value : String
deriving DecidableEq

/-- One `subjectAltName` entry, `{ type: number; value?: string; ip?: string }`. -/
structure AltName where
  type : Nat
  value : Option String := none
  ip : Option String := none
deriving DecidableEq

/-- The certificate extensions this module sets, with exactly the fields the
source passes to `cert.setExtensions`. -/
inductive X509Extension where
  | basicConstraints (cA : Bool)
  | keyUsage (keyCertSign digitalSignature cRLSign keyEncipherment : Bool)
  | subjectKeyIdentifier
  | authorityKeyIdentifier (keyIdentifier : Bool)
  | extKeyUsage (serverAuth : Bool)
  | subjectAltName (altNames : List AltName)
deriving DecidableEq

/-- An RSA key pair; the key material itself is opaque, identified by the
draw that produced it. -/
structure KeyPair where
  publicKey : Nat
  privateKey : Nat
deriving DecidableEq

/-- A forge certificate, restricted to the fields this module reads or
writes.  `signedWith` records the private key passed to `cert.sign`
(both call sites use a SHA-256 digest). -/
structure Certificate where
  publicKey : Nat
  serialNumber : String
  notBefore : JSDate
  notAfter : JSDate
  subject : List Attr
  issuer : List Attr
  extensions : List X509Extension
  signedWith : Option Nat
deriving DecidableEq

/-- The value produced by `tls.createSecureContext({ key, cert })`, modelled
by its two inputs. -/
structure SecureContext where
  key : String
  cert : String
deriving DecidableEq

/-- The record returned by `getPreviewProxyCertificateAuthority`. -/
structure PreviewProxyCertificateAuthority where
  certificatePem : String
  subject : String
  fingerprint256 : String
deriving DecidableEq

/-! ### External cryptographic primitives -/

/-- The external primitives the module calls (node-forge and node:crypto).
`keyPairAt n` is the result of the `n`-th `forge.pki.rsa.generateKeyPair`
call and `randomBytes16At n` the `n`-th `randomBytes(16)` (16 bytes, each
< 256); `sha256` is the SHA-256 digest (32 bytes, each < 256). -/
structure CryptoEnv where
  keyPairAt : Nat → KeyPair
  randomBytes16At : Nat → List Nat
  sha256 : List Nat → List Nat
  certificateToPem : Certificate → String
  certificateToDer : Certificate → List Nat
  privateKeyToPem : Nat → String

/-- Facts true of the real primitives: forge never renders an empty PEM, and
a SHA-256 digest is 32 bytes, each below 256. -/
def EnvSound (env : CryptoEnv) : Prop :=
  (∀ c, env.certificateToPem c ≠ "") ∧
  (∀ d, (env.sha256 d).length = 32) ∧
  (∀ d b, b ∈ env.sha256 d → b < 256)

/-- Lower-case hex digit for a value below 16 (Node renders hex lower-case). -/
def hexDigitChar (n : Nat) : Char :=
  if n < 10 then Char.ofNat (48 + n) else Char.ofNat (87 + n)

/-- `Buffer.toString("hex")` / `digest("hex")`: two lower-case hex digits per
byte. -/
def bytesToHex (bs : List Nat) : List Char :=
  bs.flatMap fun b => [hexDigitChar (b / 16), hexDigitChar (b % 16)]

/-! ### The module, line by line -/

/-- `const CA_COMMON_NAME`. -/
def CA_COMMON_NAME : String := "Cmux Preview Proxy CA"

/-- `const SERVER_ORG`. -/
def SERVER_ORG : String := "Cmux Preview Proxy"

/-- `randomSerialNumber()`: 16 random bytes rendered as hex (the `drawIndex`
selects which `randomBytes` result this call consumes). -/
def randomSerialNumber (env : CryptoEnv) (drawIndex : Nat) : String :=
  String.mk (bytesToHex (env.randomBytes16At drawIndex))

/-- `sha256FingerprintFromDer(der)`: SHA-256 of the DER bytes, rendered as
hex and upper-cased (`digest("hex").toUpperCase()`). -/
def sha256FingerprintFromDer (env : CryptoEnv) (der : List Nat) : String :=
  String.mk ((bytesToHex (env.sha256 der)).map Char.toUpper)

/-- The `^\d+\.\d+\.\d+\.\d+$` test: split the characters at `'.'` (keeping
empty pieces); the string matches exactly when there are four pieces, each
nonempty and all decimal digits. -/
def splitOnDot (cs : List Char) : List (List Char) :=
  match cs with
  | [] => [[]]
  | c :: rest =>
    let r := splitOnDot rest
    if c = '.' then [] :: r
    else
      match r with
      | [] => [[c]]
      | p :: ps => (c :: p) :: ps

/-- Whether `hostname` matches `/^\d+\.\d+\.\d+\.\d+$/`. -/
def isDottedQuad (hostname : String) : Bool :=
  let parts := splitOnDot hostname.data
  parts.length == 4 && parts.all fun p => !p.isEmpty && p.all Char.isDigit

/-- Whether a character belongs to the class `[0-9a-fA-F]`. -/
def isHexChar (c : Char) : Bool :=
  c.isDigit || ('a' ≤ c && c ≤ 'f') || ('A' ≤ c && c ≤ 'F')

/-- `isIpAddress(hostname)`: the dotted-quad test, or
`/^[0-9a-fA-F:]+$/` — a nonempty string of hex digits and colons (note: no
colon is required by this second pattern). -/
def isIpAddress (hostname : String) : Bool :=
  isDottedQuad hostname ||
    (!hostname.data.isEmpty && hostname.data.all fun c => isHexChar c || c = ':')

/-- Modelled from the spec's words, for comparison with `isIpAddress`:
"IPv4 dotted-quad or a colon-containing hex-group pattern consistent with
IPv6 literals" — i.e. the string contains a colon and consists of hex digits
and colons. -/
def classifyHostSpecIsIp (hostname : String) : Bool :=
  isDottedQuad hostname ||
    ((hostname.data.any fun c => c = ':') &&
      hostname.data.all fun c => isHexChar c || c = ':')

/-- `buildAltNames(hostname)`: a single IP-typed entry (`type: 7`) when
`isIpAddress`, else a single DNS-typed entry (`type: 2`). -/
def buildAltNames (hostname : String) : List AltName :=
  if isIpAddress hostname then [{ type := 7, ip := some hostname }]
  else [{ type := 2, value := some hostname }]

/-- The root certificate built by `ensureCertificateAuthority` (lines 33–61):
validity `notBefore = now - 1 day`, `notAfter` = `now` with its year set to
`notBefore`'s year plus 5; subject and issuer both the fixed CA common name;
CA extensions; self-signed with the fresh private key. -/
def buildCaCertificate (now : JSDate) (kp : KeyPair) (serial : String) : Certificate :=
  let nb := subOneDay now
  { publicKey := kp.publicKey
    serialNumber := serial
    notBefore := nb
    notAfter := setFullYear now (nb.year + 5)
    subject := [⟨"commonName", CA_COMMON_NAME⟩]
    issuer := [⟨"commonName", CA_COMMON_NAME⟩]
    extensions := [
      .basicConstraints true,
      .keyUsage true true true false,
      .subjectKeyIdentifier,
      .authorityKeyIdentifier true]
    signedWith := some kp.privateKey }

/-- The leaf certificate built by `ensureServerContext` (lines 93–119):
validity `notBefore = now - 1 day`, `notAfter` = `now` with its year set to
`notBefore`'s year plus 1; subject `commonName = hostname` and the fixed
organization; issuer the CA certificate's subject attributes; server
extensions with `subjectAltName = buildAltNames hostname`; signed with the
CA private key. -/
def buildLeafCertificate (now : JSDate) (hostname : String) (kp : KeyPair)
    (serial : String) (issuerAttrs : List Attr) (caPrivateKey : Nat) : Certificate :=
  let nb := subOneDay now
  { publicKey := kp.publicKey
    serialNumber := serial
    notBefore := nb
    notAfter := setFullYear now (nb.year + 1)
    subject := [⟨"commonName", hostname⟩, ⟨"organizationName", SERVER_ORG⟩]
    issuer := issuerAttrs
    extensions := [
      .basicConstraints false,
      .keyUsage false true false true,
      .extKeyUsage true,
      .subjectAltName (buildAltNames hostname)]
    signedWith := some caPrivateKey }

/-! ### Module state and operations -/

/-- The module-level mutable state, plus specification-only history fields.
`keygenCount`, `randomBytesCount` and `signCount` count the RSA key
generations, `randomBytes(16)` draws and `cert.sign` calls performed so far
(and index the entropy streams of `CryptoEnv`); `leafIssueCount` counts the
executions of the cache-miss issuance path and `issuedLeafCerts` records the
leaf certificates it built. -/
structure CAState where
  caKeyPair : Option KeyPair
  caCertificate : Option Certificate
  caCertificatePem : Option String
  caFingerprint256 : Option String
  secureContextCache : List (String × SecureContext)
  keygenCount : Nat
  randomBytesCount : Nat
  signCount : Nat
  leafIssueCount : Nat
  issuedLeafCerts : List Certificate
deriving DecidableEq

/-- The state at module load: all four variables `null`, the cache empty. -/
def initState : CAState :=
  ⟨none, none, none, none, [], 0, 0, 0, 0, []⟩

/-- `Map.get(k)`: the value stored under `k`, if any. -/
def mapGet {α : Type} (m : List (String × α)) (k : String) : Option α :=
  match m with
  | [] => none
  | (k', v) :: rest => if k' = k then some v else mapGet rest k

/-- `Map.set(k, v)`: overwrite the entry for `k`, or append a new one. -/
def mapSet {α : Type} (m : List (String × α)) (k : String) (v : α) : List (String × α) :=
  match m with
  | [] => [(k, v)]
  | (k', v') :: rest => if k' = k then (k, v) :: rest else (k', v') :: mapSet rest k v

/-- JavaScript truthiness of a nullable object: `null` is falsy, any object
truthy. -/
def truthyObj {α : Type} (o : Option α) : Bool :=
  o.isSome

/-- JavaScript truthiness of a nullable string: `null` and `""` are falsy. -/
def truthyStr (o : Option String) : Bool :=
  match o with
  | some s => !(s == "")
  | none => false

/-- The guard of `ensureCertificateAuthority`:
`caKeyPair && caCertificate && caCertificatePem && caFingerprint256`. -/
def CAReady (s : CAState) : Bool :=
  truthyObj s.caKeyPair && truthyObj s.caCertificate &&
    truthyStr s.caCertificatePem && truthyStr s.caFingerprint256

/-- `ensureCertificateAuthority()` (lines 27–72): return early when all four
variables are truthy; otherwise generate the root key pair, build and
self-sign the root certificate, render its PEM and fingerprint, and store
all four. -/
def ensureCertificateAuthority (env : CryptoEnv) (now : JSDate) (s : CAState) : CAState :=
  if CAReady s then s
  else
    let keyPair := env.keyPairAt s.keygenCount
    let serial := randomSerialNumber env s.randomBytesCount
    let cert := buildCaCertificate now keyPair serial
    let pem := env.certificateToPem cert
    let fingerprint := sha256FingerprintFromDer env (env.certificateToDer cert)
    { s with
      caKeyPair := some keyPair
      caCertificate := some cert
      caCertificatePem := some pem
      caFingerprint256 := some fingerprint
      keygenCount := s.keygenCount + 1
      randomBytesCount := s.randomBytesCount + 1
      signCount := s.signCount + 1 }

/-- The error message of the `throw` in `ensureServerContext`. -/
def initFailedMsg : String :=
  "Failed to initialize preview proxy certificate authority"

/-- The error message of the `throw` in `getPreviewProxyCertificateAuthority`. -/
def notInitializedMsg : String :=
  "Preview proxy certificate authority is not initialized"

/-- The cache-miss body of `ensureServerContext` (lines 92–128): generate a
leaf key pair and serial, build and sign the leaf certificate, create the
secure context from the leaf key PEM and the concatenation of the leaf PEM
and the CA PEM, store it in the cache. -/
def issueLeaf (env : CryptoEnv) (now : JSDate) (hostname : String) (s : CAState)
    (caKp : KeyPair) (caCert : Certificate) (caPem : String) : SecureContext × CAState :=
  let keyPair := env.keyPairAt s.keygenCount
  let serial := randomSerialNumber env s.randomBytesCount
  let cert := buildLeafCertificate now hostname keyPair serial caCert.subject caKp.privateKey
  let certPem := env.certificateToPem cert
  let keyPem := env.privateKeyToPem keyPair.privateKey
  let secureContext : SecureContext := { key := keyPem, cert := certPem ++ caPem }
  (secureContext,
    { s with
      secureContextCache := mapSet s.secureContextCache hostname secureContext
      keygenCount := s.keygenCount + 1
      randomBytesCount := s.randomBytesCount + 1
      signCount := s.signCount + 1
      leafIssueCount := s.leafIssueCount + 1
      issuedLeafCerts := s.issuedLeafCerts ++ [cert] })

/-- `ensureServerContext(hostname)` (lines 82–129): ensure the CA, throw if
any of the three needed variables is falsy, return the cached context on a
hit, otherwise issue a leaf credential and cache it.  The state at the point
of a `throw` is returned alongside the error. -/
def ensureServerContext (env : CryptoEnv) (now : JSDate) (hostname : String)
    (s0 : CAState) : Except String SecureContext × CAState :=
  let s := ensureCertificateAuthority env now s0
  match s.caKeyPair, s.caCertificate, s.caCertificatePem with
  | some caKp, some caCert, some caPem =>
    if caPem == "" then (.error initFailedMsg, s)
    else
      match mapGet s.secureContextCache hostname with
      | some existing => (.ok existing, s)
      | none =>
        let issued := issueLeaf env now hostname s caKp caCert caPem
        (.ok issued.1, issued.2)
  | _, _, _ => (.error initFailedMsg, s)

/-- `getSecureContextForHostname(hostname)` (lines 145–147). -/
def getSecureContextForHostname (env : CryptoEnv) (now : JSDate) (hostname : String)
    (s : CAState) : Except String SecureContext × CAState :=
  ensureServerContext env now hostname s

/-- `getPreviewProxyCertificateAuthority()` (lines 149–159): ensure the CA,
throw if the PEM or the fingerprint is falsy, else return the read-only
info record. -/
def getPreviewProxyCertificateAuthority (env : CryptoEnv) (now : JSDate)
    (s0 : CAState) : Except String PreviewProxyCertificateAuthority × CAState :=
  let s := ensureCertificateAuthority env now s0
  match s.caCertificatePem, s.caFingerprint256 with
  | some pem, some fingerprint =>
    if pem == "" || fingerprint == "" then (.error notInitializedMsg, s)
    else
      (.ok { certificatePem := pem, subject := CA_COMMON_NAME, fingerprint256 := fingerprint }, s)
  | _, _ => (.error notInitializedMsg, s)

/-- A sequence of `getSecureContextForHostname` calls, each running to
completion before the next: the function is synchronous with no suspension
point, so under the JavaScript event loop any set of concurrent callers
executes as such a sequence of atomic calls. -/
def runCalls (env : CryptoEnv) (now : JSDate) (hs : List String)
    (s : CAState) : List (Except String SecureContext) × CAState :=
  match hs with
  | [] => ([], s)
  | h :: rest =>
    let (r, s') := getSecureContextForHostname env now h s
    let (rs, s'') := runCalls env now rest s'
    (r :: rs, s'')

/-- Whether an `Except` result is a normal return (no `throw`). -/
def isOkResult {α : Type} (r : Except String α) : Bool :=
  match r with
  | .ok _ => true
  | .error _ => false

/-! ### Concrete instances used to exercise the definitions -/

/-- A concrete, executable instance of the external primitives (used to
evaluate the model at concrete inputs). -/
def trivEnv : CryptoEnv where
  keyPairAt := fun n => ⟨2 * n, 2 * n + 1⟩
  randomBytes16At := fun _ => List.replicate 16 0
  sha256 := fun _ => List.replicate 32 0
  certificateToPem := fun _ => "PEM\n"
  certificateToDer := fun _ => [48]
  privateKeyToPem := fun _ => "KEY\n"

/-- A concrete date: 2026-05-15. -/
def d0 : JSDate := ⟨2026, 5, 15⟩

/-- A concrete state whose root authority is already built and whose cache is
empty. -/
def readyState : CAState :=
  { initState with
    caKeyPair := some ⟨0, 1⟩
    caCertificate := some (buildCaCertificate d0 ⟨0, 1⟩ (randomSerialNumber trivEnv 0))
    caCertificatePem := some "PEM\n"
    caFingerprint256 := some (sha256FingerprintFromDer trivEnv [48])
    keygenCount := 1
    randomBytesCount := 1
    signCount := 1 }

/-! ### Helper lemmas -/

lemma mapGet_mapSet_self {α : Type} (m : List (String × α)) (k : String) (v : α) :
    mapGet (mapSet m k v) k = some v := by
  induction m with
  | nil => simp [mapSet, mapGet]
  | cons p rest ih =>
    obtain ⟨k', v'⟩ := p
    by_cases hk : k' = k
    · simp [mapSet, mapGet, hk]
    · simp [mapSet, mapGet, hk, ih]

lemma caready_elim (s : CAState) (h : CAReady s = true) :
    ∃ kp cert pem fp, s.caKeyPair = some kp ∧ s.caCertificate = some cert ∧
      s.caCertificatePem = some pem ∧ s.caFingerprint256 = some fp ∧
      pem ≠ "" ∧ fp ≠ "" := by
  unfold CAReady truthyObj truthyStr at h
  rcases hkp : s.caKeyPair with _ | kp <;> rw [hkp] at h
  · simp at h
  rcases hcert : s.caCertificate with _ | cert <;> rw [hcert] at h
  · simp at h
  rcases hpem : s.caCertificatePem with _ | pem <;> rw [hpem] at h
  · simp at h
  rcases hfp : s.caFingerprint256 with _ | fp <;> rw [hfp] at h
  · simp at h
  simp only [Option.isSome_some, Bool.true_and, Bool.and_eq_true, Bool.not_eq_true',
    beq_eq_false_iff_ne, ne_eq] at h
  exact ⟨kp, cert, pem, fp, rfl, rfl, rfl, rfl, h.1, h.2⟩

lemma caready_intro (s : CAState) (kp : KeyPair) (cert : Certificate) (pem fp : String)
    (hkp : s.caKeyPair = some kp) (hcert : s.caCertificate = some cert)
    (hpem : s.caCertificatePem = some pem) (hfp : s.caFingerprint256 = some fp)
    (hpne : pem ≠ "") (hfne : fp ≠ "") : CAReady s = true := by
  simp [CAReady, truthyObj, truthyStr, hkp, hcert, hpem, hfp, hpne, hfne]

lemma ensureCA_of_ready (env : CryptoEnv) (now : JSDate) {s : CAState}
    (h : CAReady s = true) : ensureCertificateAuthority env now s = s := by
  simp [ensureCertificateAuthority, h]

lemma bytesToHex_length (bs : List Nat) : (bytesToHex bs).length = 2 * bs.length := by
  induction bs with
  | nil => simp [bytesToHex]
  | cons b rest ih =>
    simp [bytesToHex] at ih ⊢
    omega

lemma sha256FingerprintFromDer_length (env : CryptoEnv) (der : List Nat) :
    (sha256FingerprintFromDer env der).length = 2 * (env.sha256 der).length := by
  show ((bytesToHex (env.sha256 der)).map Char.toUpper).length = _
  simp [bytesToHex_length]

lemma sha256FingerprintFromDer_ne_empty (env : CryptoEnv) (der : List Nat)
    (h : (env.sha256 der).length = 32) : sha256FingerprintFromDer env der ≠ "" := by
  intro hcontra
  have hlen := sha256FingerprintFromDer_length env der
  rw [hcontra, h] at hlen
  simp at hlen

lemma caready_ensureCA (env : CryptoEnv) (now : JSDate) (s : CAState)
    (hE : EnvSound env) :
    CAReady (ensureCertificateAuthority env now s) = true := by
  cases hr : CAReady s with
  | true => rw [ensureCA_of_ready env now hr]; exact hr
  | false =>
    simp only [ensureCertificateAuthority, hr, Bool.false_eq_true, if_false]
    exact caready_intro _ _ _ _ _ rfl rfl rfl rfl (hE.1 _)
      (sha256FingerprintFromDer_ne_empty env _ (hE.2.1 _))

lemma serverContext_hit (env : CryptoEnv) (now : JSDate) (h : String) (s : CAState)
    (ctx : SecureContext) (hr : CAReady s = true)
    (hc : mapGet s.secureContextCache h = some ctx) :
    ensureServerContext env now h s = (.ok ctx, s) := by
  obtain ⟨kp, cert, pem, fp, hkp, hcert, hpem, hfp, hpne, hfne⟩ := caready_elim s hr
  simp [ensureServerContext, ensureCA_of_ready env now hr, hkp, hcert, hpem, hc, hpne]

lemma serverContext_miss (env : CryptoEnv) (now : JSDate) (h : String) (s : CAState)
    (kp : KeyPair) (cert : Certificate) (pem : String)
    (hkp : s.caKeyPair = some kp) (hcert : s.caCertificate = some cert)
    (hpem : s.caCertificatePem = some pem) (hpne : pem ≠ "") (hr : CAReady s = true)
    (hc : mapGet s.secureContextCache h = none) :
    ensureServerContext env now h s =
      (.ok (issueLeaf env now h s kp cert pem).1, (issueLeaf env now h s kp cert pem).2) := by
  simp [ensureServerContext, ensureCA_of_ready env now hr, hkp, hcert, hpem, hc, hpne]

lemma issueLeaf_caready (env : CryptoEnv) (now : JSDate) (h : String) (s : CAState)
    (kp : KeyPair) (cert : Certificate) (pem : String) :
    CAReady (issueLeaf env now h s kp cert pem).2 = CAReady s := rfl

lemma issueLeaf_cache (env : CryptoEnv) (now : JSDate) (h : String) (s : CAState)
    (kp : KeyPair) (cert : Certificate) (pem : String) :
    mapGet (issueLeaf env now h s kp cert pem).2.secureContextCache h =
      some (issueLeaf env now h s kp cert pem).1 := by
  show mapGet (mapSet s.secureContextCache h _) h = _
  exact mapGet_mapSet_self _ _ _

lemma serverContext_collapse (env : CryptoEnv) (now : JSDate) (h : String) (s : CAState)
    (hready : CAReady (ensureCertificateAuthority env now s) = true) :
    ensureServerContext env now h s =
      ensureServerContext env now h (ensureCertificateAuthority env now s) := by
  unfold ensureServerContext
  rw [ensureCA_of_ready env now hready]

lemma getPPCA_collapse (env : CryptoEnv) (now : JSDate) (s : CAState)
    (hready : CAReady (ensureCertificateAuthority env now s) = true) :
    getPreviewProxyCertificateAuthority env now s =
      getPreviewProxyCertificateAuthority env now (ensureCertificateAuthority env now s) := by
  unfold getPreviewProxyCertificateAuthority
  rw [ensureCA_of_ready env now hready]

lemma getPPCA_of_ready (env : CryptoEnv) (now : JSDate) (s : CAState)
    (hr : CAReady s = true) :
    ∃ pem fp, s.caCertificatePem = some pem ∧ s.caFingerprint256 = some fp ∧
      getPreviewProxyCertificateAuthority env now s =
        (.ok { certificatePem := pem, subject := CA_COMMON_NAME, fingerprint256 := fp }, s) := by
  obtain ⟨kp, cert, pem, fp, hkp, hcert, hpem, hfp, hpne, hfne⟩ := caready_elim s hr
  refine ⟨pem, fp, hpem, hfp, ?_⟩
  simp [getPreviewProxyCertificateAuthority, ensureCA_of_ready env now hr, hpem, hfp, hpne, hfne]

lemma runCalls_hit (env : CryptoEnv) (now : JSDate) (h : String) (s : CAState)
    (ctx : SecureContext) (n : Nat) (hr : CAReady s = true)
    (hc : mapGet s.secureContextCache h = some ctx) :
    runCalls env now (List.replicate n h) s = (List.replicate n (Except.ok ctx), s) := by
  induction n with
  | zero => simp [runCalls]
  | succ k ih =>
    rw [List.replicate_succ, List.replicate_succ]
    simp only [runCalls, getSecureContextForHostname]
    rw [serverContext_hit env now h s ctx hr hc]
    simp [ih]

lemma call_post (env : CryptoEnv) (now : JSDate) (h : String) (s : CAState)
    (hE : EnvSound env) :
    ∃ ctx, getSecureContextForHostname env now h s =
        (.ok ctx, (getSecureContextForHostname env now h s).2) ∧
      CAReady (getSecureContextForHostname env now h s).2 = true ∧
      mapGet (getSecureContextForHostname env now h s).2.secureContextCache h = some ctx := by
  have hready := caready_ensureCA env now s hE
  obtain ⟨kp, cert, pem, fp, hkp, hcert, hpem, hfp, hpne, hfne⟩ := caready_elim _ hready
  have hcol : getSecureContextForHostname env now h s =
      ensureServerContext env now h (ensureCertificateAuthority env now s) :=
    serverContext_collapse env now h s hready
  cases hc : mapGet (ensureCertificateAuthority env now s).secureContextCache h with
  | some ctx =>
    have heq := serverContext_hit env now h _ ctx hready hc
    rw [hcol, heq]
    exact ⟨ctx, rfl, hready, hc⟩
  | none =>
    have heq := serverContext_miss env now h _ kp cert pem hkp hcert hpem hpne hready hc
    rw [hcol, heq]
    refine ⟨_, rfl, ?_, ?_⟩
    · rw [issueLeaf_caready]
      exact hready
    · exact issueLeaf_cache env now h _ kp cert pem

lemma hexUpper_mem :
    ∀ n, n < 16 → Char.toUpper (hexDigitChar n) ∈ ("0123456789ABCDEF" : String).data := by
  decide

lemma fingerprint_chars (env : CryptoEnv) (der : List Nat)
    (hbytes : ∀ b ∈ env.sha256 der, b < 256) :
    ∀ c ∈ (sha256FingerprintFromDer env der).data, c ∈ ("0123456789ABCDEF" : String).data := by
  intro c hc
  have hc' : c ∈ (bytesToHex (env.sha256 der)).map Char.toUpper := hc
  rw [List.mem_map] at hc'
  obtain ⟨c', hc', rfl⟩ := hc'
  rw [bytesToHex, List.mem_flatMap] at hc'
  obtain ⟨b, hb, hmem⟩ := hc'
  have hb256 := hbytes b hb
  simp only [List.mem_cons, List.mem_singleton, List.not_mem_nil, or_false] at hmem
  rcases hmem with hm | hm <;> subst hm
  · exact hexUpper_mem _ (by omega)
  · exact hexUpper_mem _ (by omega)

lemma trivEnv_sound : EnvSound trivEnv := by
  refine ⟨fun c => ?_, fun d => ?_, fun d b hb => ?_⟩
  · simp [trivEnv]
  · simp [trivEnv]
  · simp [trivEnv] at hb
    omega

/-! ### Claims -/

/-- C1 (counterexample): the claim says the SAN entry is IP-typed exactly when
the hostname is dotted-quad or matches a colon-containing hex-group pattern.
The hostname "beef" contains no colon and is not a dotted quad, so the claim
requires a DNS-typed entry; but `isIpAddress` accepts any nonempty string of
hex digits and colons — no colon required — so the code emits an IP-typed
entry for "beef". -/
theorem C1_counterexample_beef :
    classifyHostSpecIsIp "beef" = false ∧
    isIpAddress "beef" = true ∧
    buildAltNames "beef" = [{ type := 7, ip := some "beef" }] := by
  decide

/-- C1 (amended): every leaf certificate carries exactly one Subject
Alternative Name entry, and that entry is IP-typed exactly when the hostname
matches the IPv4 dotted-quad pattern or consists entirely of hex digits and
colons (nonempty; a colon is NOT required), and is otherwise DNS-typed with
the hostname as its value. -/
theorem C1_amended_san_classification (now : JSDate) (hostname : String) (kp : KeyPair)
    (serial : String) (issuerAttrs : List Attr) (caKey : Nat) :
    ∃ e, (buildLeafCertificate now hostname kp serial issuerAttrs caKey).extensions =
        [.basicConstraints false, .keyUsage false true false true, .extKeyUsage true,
          .subjectAltName [e]] ∧
      ((e.type = 7 ∧ e.ip = some hostname ∧ e.value = none) ↔ isIpAddress hostname = true) ∧
      ((e.type = 2 ∧ e.value = some hostname ∧ e.ip = none) ↔ isIpAddress hostname = false) := by
  cases hip : isIpAddress hostname with
  | true =>
    refine ⟨⟨7, none, some hostname⟩, ?_, by simp, by simp⟩
    simp [buildLeafCertificate, buildAltNames, hip]
  | false =>
    refine ⟨⟨2, some hostname, none⟩, ?_, by simp, by simp⟩
    simp [buildLeafCertificate, buildAltNames, hip]

/-- C2: `getSecureContextForHostname` is synchronous with no suspension
point, so concurrent callers execute as a sequence of atomic calls; for any
number of such calls for the same uncached hostname, exactly one issuance
runs (one key generation, one signature) and every caller observes the same
successful result. -/
theorem C2_singleflight (env : CryptoEnv) (now : JSDate) (h : String) (s : CAState)
    (n : Nat) (hr : CAReady s = true) (hc : mapGet s.secureContextCache h = none) :
    ∃ ctx s', runCalls env now (List.replicate (n + 1) h) s =
        (List.replicate (n + 1) (Except.ok ctx), s') ∧
      s'.keygenCount = s.keygenCount + 1 ∧ s'.signCount = s.signCount + 1 ∧
      s'.leafIssueCount = s.leafIssueCount + 1 ∧
      mapGet s'.secureContextCache h = some ctx := by
  obtain ⟨kp, cert, pem, fp, hkp, hcert, hpem, hfp, hpne, hfne⟩ := caready_elim s hr
  have hmiss := serverContext_miss env now h s kp cert pem hkp hcert hpem hpne hr hc
  have hready1 : CAReady (issueLeaf env now h s kp cert pem).2 = true := by
    rw [issueLeaf_caready]
    exact hr
  have hcache1 := issueLeaf_cache env now h s kp cert pem
  refine ⟨(issueLeaf env now h s kp cert pem).1, (issueLeaf env now h s kp cert pem).2,
    ?_, rfl, rfl, rfl, hcache1⟩
  rw [List.replicate_succ, List.replicate_succ]
  simp only [runCalls, getSecureContextForHostname]
  rw [hmiss]
  simp [runCalls_hit env now h _ _ n hready1 hcache1]

/-- Witness for C2: three calls for the uncached hostname "example.com" on a
concrete ready state perform exactly one issuance and all return the same
context. -/
theorem C2_singleflight_witness :
    CAReady readyState = true ∧
    mapGet readyState.secureContextCache "example.com" = none ∧
    ∃ ctx s', runCalls trivEnv d0 (List.replicate (2 + 1) "example.com") readyState =
        (List.replicate (2 + 1) (Except.ok ctx), s') ∧
      s'.keygenCount = readyState.keygenCount + 1 ∧
      s'.signCount = readyState.signCount + 1 ∧
      s'.leafIssueCount = readyState.leafIssueCount + 1 ∧
      mapGet s'.secureContextCache "example.com" = some ctx :=
  ⟨by decide, by decide,
    C2_singleflight trivEnv d0 "example.com" readyState 2 (by decide) (by decide)⟩

/-- C3 (counterexample): the claim says a call with the empty hostname is
rejected with a validation error before any issuance; but the code performs
no hostname validation — the call with `""` returns a context normally,
after a full issuance (`leafIssueCount` becomes 1) that is cached under the
empty-string key. -/
theorem C3_counterexample_empty :
    (getSecureContextForHostname trivEnv d0 "" initState).1 =
      .ok ⟨"KEY\n", "PEM\nPEM\n"⟩ ∧
    (getSecureContextForHostname trivEnv d0 "" initState).2.leafIssueCount = 1 ∧
    mapGet (getSecureContextForHostname trivEnv d0 "" initState).2.secureContextCache "" =
      some ⟨"KEY\n", "PEM\nPEM\n"⟩ := by
  refine ⟨by rfl, by decide, by decide⟩

/-- C3 (amended): a call with the empty hostname is not rejected — no
validation error exists in the code; issuance proceeds exactly as for any
other hostname and the resulting context is cached under the empty-string
key. -/
theorem C3_amended_empty_hostname (env : CryptoEnv) (now : JSDate) (s : CAState)
    (hr : CAReady s = true) (hc : mapGet s.secureContextCache "" = none) :
    ∃ ctx s', getSecureContextForHostname env now "" s = (.ok ctx, s') ∧
      s'.leafIssueCount = s.leafIssueCount + 1 ∧
      mapGet s'.secureContextCache "" = some ctx := by
  obtain ⟨kp, cert, pem, fp, hkp, hcert, hpem, hfp, hpne, hfne⟩ := caready_elim s hr
  exact ⟨_, _, serverContext_miss env now "" s kp cert pem hkp hcert hpem hpne hr hc,
    rfl, issueLeaf_cache env now "" s kp cert pem⟩

/-- Witness for C3 (amended): the empty hostname is issued and cached on a
concrete ready state. -/
theorem C3_amended_empty_hostname_witness :
    CAReady readyState = true ∧
    mapGet readyState.secureContextCache "" = none ∧
    ∃ ctx s', getSecureContextForHostname trivEnv d0 "" readyState = (.ok ctx, s') ∧
      s'.leafIssueCount = readyState.leafIssueCount + 1 ∧
      mapGet s'.secureContextCache "" = some ctx :=
  ⟨by decide, by decide,
    C3_amended_empty_hostname trivEnv d0 readyState (by decide) (by decide)⟩

/-- C4: at the failing input now = January 1 (here 2026-01-01), the leaf's
not-before is now − 1 day (December 31, in the PREVIOUS year), so
`notBefore.getFullYear() + 1` is the current year and the leaf's not-after
equals now itself — not now + 1 year; likewise the root's not-after is
now + 4 years, not now + 5. -/
theorem C4_validity_jan1 :
    (buildLeafCertificate ⟨2026, 1, 1⟩ "example.com" ⟨2, 3⟩ "00" [] 1).notBefore =
      ⟨2025, 12, 31⟩ ∧
    (buildLeafCertificate ⟨2026, 1, 1⟩ "example.com" ⟨2, 3⟩ "00" [] 1).notAfter =
      ⟨2026, 1, 1⟩ ∧
    addYears ⟨2026, 1, 1⟩ 1 = ⟨2027, 1, 1⟩ ∧
    (buildLeafCertificate ⟨2026, 1, 1⟩ "example.com" ⟨2, 3⟩ "00" [] 1).notAfter ≠
      addYears ⟨2026, 1, 1⟩ 1 ∧
    (buildCaCertificate ⟨2026, 1, 1⟩ ⟨0, 1⟩ "00").notAfter = ⟨2030, 1, 1⟩ ∧
    addYears ⟨2026, 1, 1⟩ 5 = ⟨2031, 1, 1⟩ ∧
    (buildCaCertificate ⟨2026, 1, 1⟩ ⟨0, 1⟩ "00").notAfter ≠ addYears ⟨2026, 1, 1⟩ 5 := by
  decide

/-- C5: a second call for an already-requested hostname returns exactly the
first call's result on exactly the first call's state — the same stored
context, with no new key generation or signing and no cache mutation. -/
theorem C5_cache_idempotent (env : CryptoEnv) (now now' : JSDate) (h : String)
    (s : CAState) (hE : EnvSound env) :
    getSecureContextForHostname env now' h (getSecureContextForHostname env now h s).2 =
      getSecureContextForHostname env now h s := by
  obtain ⟨ctx, heq, hready, hcache⟩ := call_post env now h s hE
  have hhit := serverContext_hit env now' h _ ctx hready hcache
  show ensureServerContext env now' h _ = _
  rw [hhit]
  exact heq.symm

/-- Witness for C5: two successive calls for "example.com" from the initial
state; the second returns the first's context and leaves the state
untouched. -/
theorem C5_cache_idempotent_witness :
    getSecureContextForHostname trivEnv d0 "example.com"
        (getSecureContextForHostname trivEnv d0 "example.com" initState).2 =
      getSecureContextForHostname trivEnv d0 "example.com" initState :=
  C5_cache_idempotent trivEnv d0 d0 "example.com" initState trivEnv_sound

/-- C6: `getPreviewProxyCertificateAuthority` succeeds, and calling it again
returns the identical info record (same `certificatePem`, same
`fingerprint256`) on the identical state — no new cryptographic work. -/
theorem C6_root_singleton (env : CryptoEnv) (now now' : JSDate) (s : CAState)
    (hE : EnvSound env) :
    (∃ info, (getPreviewProxyCertificateAuthority env now s).1 = .ok info) ∧
    getPreviewProxyCertificateAuthority env now'
        (getPreviewProxyCertificateAuthority env now s).2 =
      getPreviewProxyCertificateAuthority env now s := by
  have hready := caready_ensureCA env now s hE
  obtain ⟨pem, fp, hpem, hfp, heqA⟩ := getPPCA_of_ready env now _ hready
  have hfirst : getPreviewProxyCertificateAuthority env now s =
      (.ok ⟨pem, CA_COMMON_NAME, fp⟩, ensureCertificateAuthority env now s) := by
    rw [getPPCA_collapse env now s hready]
    exact heqA
  obtain ⟨pem', fp', hpem', hfp', heqB⟩ := getPPCA_of_ready env now' _ hready
  rw [hpem] at hpem'
  rw [hfp] at hfp'
  obtain rfl : pem = pem' := Option.some.inj hpem'
  obtain rfl : fp = fp' := Option.some.inj hfp'
  refine ⟨⟨_, by rw [hfirst]⟩, ?_⟩
  rw [hfirst]
  exact heqB

/-- Witness for C6: two successive root-info retrievals from the initial
state. -/
theorem C6_root_singleton_witness :
    (∃ info, (getPreviewProxyCertificateAuthority trivEnv d0 initState).1 = .ok info) ∧
    getPreviewProxyCertificateAuthority trivEnv d0
        (getPreviewProxyCertificateAuthority trivEnv d0 initState).2 =
      getPreviewProxyCertificateAuthority trivEnv d0 initState :=
  C6_root_singleton trivEnv d0 d0 initState trivEnv_sound

/-- C7: the fingerprint returned by `getPreviewProxyCertificateAuthority`
(starting from an uninitialized root) is exactly 64 characters, all
uppercase hexadecimal, and is precisely the SHA-256 digest of the stored
root certificate's DER encoding rendered as uppercase hex. -/
theorem C7_fingerprint_format (env : CryptoEnv) (now : JSDate) (s : CAState)
    (hE : EnvSound env) (hs : CAReady s = false) :
    ∃ info, (getPreviewProxyCertificateAuthority env now s).1 = .ok info ∧
      info.fingerprint256.length = 64 ∧
      (∀ c ∈ info.fingerprint256.data, c ∈ ("0123456789ABCDEF" : String).data) ∧
      ∃ cert, (getPreviewProxyCertificateAuthority env now s).2.caCertificate = some cert ∧
        info.fingerprint256 = sha256FingerprintFromDer env (env.certificateToDer cert) := by
  have hready := caready_ensureCA env now s hE
  have hcertval : (ensureCertificateAuthority env now s).caCertificate =
      some (buildCaCertificate now (env.keyPairAt s.keygenCount)
        (randomSerialNumber env s.randomBytesCount)) := by
    simp [ensureCertificateAuthority, hs]
  have hfpval : (ensureCertificateAuthority env now s).caFingerprint256 =
      some (sha256FingerprintFromDer env (env.certificateToDer
        (buildCaCertificate now (env.keyPairAt s.keygenCount)
          (randomSerialNumber env s.randomBytesCount)))) := by
    simp [ensureCertificateAuthority, hs]
  obtain ⟨pem, fp, hpem, hfp, heqA⟩ := getPPCA_of_ready env now _ hready
  have hfirst : getPreviewProxyCertificateAuthority env now s =
      (.ok ⟨pem, CA_COMMON_NAME, fp⟩, ensureCertificateAuthority env now s) := by
    rw [getPPCA_collapse env now s hready]
    exact heqA
  rw [hfpval] at hfp
  obtain rfl : _ = fp := Option.some.inj hfp
  refine ⟨⟨pem, CA_COMMON_NAME, _⟩, by rw [hfirst], ?_, ?_, ?_⟩
  · rw [sha256FingerprintFromDer_length, hE.2.1]
  · exact fingerprint_chars env _ (hE.2.2 _)
  · refine ⟨_, ?_, rfl⟩
    rw [hfirst]
    exact hcertval

/-- Witness for C7: the fingerprint produced from the initial state under the
concrete environment. -/
theorem C7_fingerprint_format_witness :
    ∃ info, (getPreviewProxyCertificateAuthority trivEnv d0 initState).1 = .ok info ∧
      info.fingerprint256.length = 64 ∧
      (∀ c ∈ info.fingerprint256.data, c ∈ ("0123456789ABCDEF" : String).data) ∧
      ∃ cert,
        (getPreviewProxyCertificateAuthority trivEnv d0 initState).2.caCertificate =
          some cert ∧
        info.fingerprint256 = sha256FingerprintFromDer trivEnv (trivEnv.certificateToDer cert) :=
  C7_fingerprint_format trivEnv d0 initState trivEnv_sound (by decide)

/-- C8: the root certificate built on first initialization is self-signed —
issuer = subject = the single commonName attribute `CA_COMMON_NAME` — and
the leaf certificate issued for any hostname has issuer equal to that root
subject and its own subject commonName equal to the hostname (plus the fixed
organization attribute). -/
theorem C8_chain_identity (env : CryptoEnv) (now now' : JSDate) (h : String) (s : CAState)
    (root : Certificate) (hE : EnvSound env) (hs : CAReady s = false)
    (hroot : (ensureCertificateAuthority env now s).caCertificate = some root)
    (hm : mapGet (ensureCertificateAuthority env now s).secureContextCache h = none) :
    root.subject = [⟨"commonName", CA_COMMON_NAME⟩] ∧
    root.issuer = root.subject ∧
    ∃ leaf,
      (getSecureContextForHostname env now' h
          (ensureCertificateAuthority env now s)).2.issuedLeafCerts =
        (ensureCertificateAuthority env now s).issuedLeafCerts ++ [leaf] ∧
      leaf.issuer = root.subject ∧
      leaf.subject = [⟨"commonName", h⟩, ⟨"organizationName", SERVER_ORG⟩] := by
  have hready := caready_ensureCA env now s hE
  have hrootval : (ensureCertificateAuthority env now s).caCertificate =
      some (buildCaCertificate now (env.keyPairAt s.keygenCount)
        (randomSerialNumber env s.randomBytesCount)) := by
    simp [ensureCertificateAuthority, hs]
  rw [hrootval] at hroot
  obtain rfl : _ = root := Option.some.inj hroot
  obtain ⟨kp, cert, pem, fp, hkp, hcert, hpem, hfp, hpne, hfne⟩ := caready_elim _ hready
  rw [hrootval] at hcert
  obtain rfl : _ = cert := Option.some.inj hcert
  have hmiss := serverContext_miss env now' h _ kp _ pem hkp hrootval hpem hpne hready hm
  refine ⟨rfl, rfl, ?_⟩
  refine ⟨buildLeafCertificate now' h
    (env.keyPairAt (ensureCertificateAuthority env now s).keygenCount)
    (randomSerialNumber env (ensureCertificateAuthority env now s).randomBytesCount)
    (buildCaCertificate now (env.keyPairAt s.keygenCount)
      (randomSerialNumber env s.randomBytesCount)).subject kp.privateKey, ?_, rfl, rfl⟩
  show (ensureServerContext env now' h _).2.issuedLeafCerts = _
  rw [hmiss]
  rfl

/-- Witness for C8: root and leaf identity facts at the concrete environment
from the initial state. -/
theorem C8_chain_identity_witness :
    (buildCaCertificate d0 (trivEnv.keyPairAt 0) (randomSerialNumber trivEnv 0)).subject =
      [⟨"commonName", CA_COMMON_NAME⟩] ∧
    (buildCaCertificate d0 (trivEnv.keyPairAt 0) (randomSerialNumber trivEnv 0)).issuer =
      (buildCaCertificate d0 (trivEnv.keyPairAt 0) (randomSerialNumber trivEnv 0)).subject ∧
    ∃ leaf,
      (getSecureContextForHostname trivEnv d0 "example.com"
          (ensureCertificateAuthority trivEnv d0 initState)).2.issuedLeafCerts =
        (ensureCertificateAuthority trivEnv d0 initState).issuedLeafCerts ++ [leaf] ∧
      leaf.issuer =
        (buildCaCertificate d0 (trivEnv.keyPairAt 0) (randomSerialNumber trivEnv 0)).subject ∧
      leaf.subject =
        [⟨"commonName", "example.com"⟩, ⟨"organizationName", SERVER_ORG⟩] :=
  C8_chain_identity trivEnv d0 d0 "example.com" initState
    (buildCaCertificate d0 (trivEnv.keyPairAt 0) (randomSerialNumber trivEnv 0))
    trivEnv_sound (by decide) (by rfl) (by rfl)

/-- C9: the TLS server context produced on a cache miss pairs the fresh leaf
key pair's private-key PEM with the certificate chain rendered as leaf PEM
first, then root PEM. -/
theorem C9_context_chain_order (env : CryptoEnv) (now : JSDate) (h : String) (s : CAState)
    (hr : CAReady s = true) (hc : mapGet s.secureContextCache h = none) :
    ∃ ctx leaf caPem,
      (getSecureContextForHostname env now h s).1 = .ok ctx ∧
      s.caCertificatePem = some caPem ∧
      (getSecureContextForHostname env now h s).2.issuedLeafCerts =
        s.issuedLeafCerts ++ [leaf] ∧
      ctx.key = env.privateKeyToPem (env.keyPairAt s.keygenCount).privateKey ∧
      ctx.cert = env.certificateToPem leaf ++ caPem ∧
      leaf.publicKey = (env.keyPairAt s.keygenCount).publicKey := by
  obtain ⟨kp, cert, pem, fp, hkp, hcert, hpem, hfp, hpne, hfne⟩ := caready_elim s hr
  have hmiss := serverContext_miss env now h s kp cert pem hkp hcert hpem hpne hr hc
  refine ⟨(issueLeaf env now h s kp cert pem).1,
    buildLeafCertificate now h (env.keyPairAt s.keygenCount)
      (randomSerialNumber env s.randomBytesCount) cert.subject kp.privateKey,
    pem, ?_, hpem, ?_, rfl, rfl, rfl⟩
  · show (ensureServerContext env now h s).1 = _
    rw [hmiss]
  · show (ensureServerContext env now h s).2.issuedLeafCerts = _
    rw [hmiss]
    rfl

/-- Witness for C9: the context built for "example.com" on a concrete ready
state. -/
theorem C9_context_chain_order_witness :
    ∃ ctx leaf caPem,
      (getSecureContextForHostname trivEnv d0 "example.com" readyState).1 = .ok ctx ∧
      readyState.caCertificatePem = some caPem ∧
      (getSecureContextForHostname trivEnv d0 "example.com" readyState).2.issuedLeafCerts =
        readyState.issuedLeafCerts ++ [leaf] ∧
      ctx.key = trivEnv.privateKeyToPem (trivEnv.keyPairAt readyState.keygenCount).privateKey ∧
      ctx.cert = trivEnv.certificateToPem leaf ++ caPem ∧
      leaf.publicKey = (trivEnv.keyPairAt readyState.keygenCount).publicKey :=
  C9_context_chain_order trivEnv d0 "example.com" readyState (by decide) (by decide)

/-- C10: after `ensureCertificateAuthority` returns, all four module-level
fields are non-null; consequently the "Failed to initialize" throw in
`ensureServerContext` and the "not initialized" throw in
`getPreviewProxyCertificateAuthority` can never fire on the resulting
state. -/
theorem C10_no_throw_after_init (env : CryptoEnv) (now : JSDate) (s : CAState)
    (hE : EnvSound env) :
    (ensureCertificateAuthority env now s).caKeyPair.isSome = true ∧
    (ensureCertificateAuthority env now s).caCertificate.isSome = true ∧
    (ensureCertificateAuthority env now s).caCertificatePem.isSome = true ∧
    (ensureCertificateAuthority env now s).caFingerprint256.isSome = true ∧
    (∀ (now' : JSDate) (h : String),
      (ensureServerContext env now' h (ensureCertificateAuthority env now s)).1 ≠
        Except.error initFailedMsg) ∧
    (∀ now' : JSDate,
      (getPreviewProxyCertificateAuthority env now'
          (ensureCertificateAuthority env now s)).1 ≠
        Except.error notInitializedMsg) := by
  have hready := caready_ensureCA env now s hE
  obtain ⟨kp, cert, pem, fp, hkp, hcert, hpem, hfp, hpne, hfne⟩ := caready_elim _ hready
  refine ⟨by rw [hkp]; rfl, by rw [hcert]; rfl, by rw [hpem]; rfl, by rw [hfp]; rfl, ?_, ?_⟩
  · intro now' h
    cases hcache : mapGet (ensureCertificateAuthority env now s).secureContextCache h with
    | some ctx =>
      rw [serverContext_hit env now' h _ ctx hready hcache]
      simp
    | none =>
      rw [serverContext_miss env now' h _ kp cert pem hkp hcert hpem hpne hready hcache]
      simp
  · intro now'
    obtain ⟨pem', fp', hpem', hfp', heq⟩ := getPPCA_of_ready env now' _ hready
    rw [heq]
    simp

/-- Witness for C10: the fields are set and the throws unreachable after
initializing from the initial state under the concrete environment. -/
theorem C10_no_throw_after_init_witness :
    (ensureCertificateAuthority trivEnv d0 initState).caKeyPair.isSome = true ∧
    (ensureCertificateAuthority trivEnv d0 initState).caCertificate.isSome = true ∧
    (ensureCertificateAuthority trivEnv d0 initState).caCertificatePem.isSome = true ∧
    (ensureCertificateAuthority trivEnv d0 initState).caFingerprint256.isSome = true ∧
    (∀ (now' : JSDate) (h : String),
      (ensureServerContext trivEnv now' h (ensureCertificateAuthority trivEnv d0 initState)).1 ≠
        Except.error initFailedMsg) ∧
    (∀ now' : JSDate,
      (getPreviewProxyCertificateAuthority trivEnv now'
          (ensureCertificateAuthority trivEnv d0 initState)).1 ≠
        Except.error notInitializedMsg) :=
  C10_no_throw_after_init trivEnv d0 initState trivEnv_sound

end PreviewProxyCA
